import Mathlib

/-!
Verification of the `tplay` terminal-media-player core against its design
specification.  The Rust sources are shallowly embedded: images are lists of
pixel values, machine integers become `Nat` (with explicit truncation where
the source truncates), fallible operations return `Except`, and the stateful
pipeline runner becomes explicit state passing over a `Runner` structure.
-/

namespace TPlay

/-- One RGB pixel: the three channel bytes (each `< 256` for well-formed
images), mirroring the `image::Rgb<u8>` pixels of the Rust code. -/
abbrev Rgb := Nat × Nat × Nat

/-- An RGB image: `image::DynamicImage` (always converted to RGB8 by the
pipeline via `into_rgb8`).  `data` is the row-major pixel buffer. -/
structure RgbImage where
  width : Nat
  height : Nat
  data : List Rgb
  deriving DecidableEq, Repr

/-- A grayscale image (`image::GrayImage`): row-major luminance bytes. -/
structure GrayImage where
  width : Nat
  height : Nat
  data : List Nat
  deriving DecidableEq, Repr

/-- `GrayImage::get_pixel(x, y)[0]`: the luminance byte of the cell at
column `x`, row `y` of the row-major buffer. -/
def GrayImage.get_pixel (img : GrayImage) (x y : Nat) : Nat :=
  img.data.getD (y * img.width + x) 0

/- The character maps of `src/pipeline/char_maps.rs`, copied verbatim
(braces, quote and apostrophe characters appear as `\x..` escapes). -/

/-- `char_maps::CHARS1`: 10 characters, ASCII-127 only. -/
def CHARS1 : String := " .:-=+*#%@"

/-- `char_maps::CHARS2`: 67 characters, ASCII-127 only. -/
def CHARS2 : String := " .\x27\x60^\",:;Il!i~+_-?][\x7d\x7b1)(|/tfjrxnuvczXYUJCLQ0OZmwqpdbkhao*#MW&8%B@$"

/-- `char_maps::CHARS3`: 92 characters, ASCII-255. -/
def CHARS3 : String := " \x60.-\x27:_,^=;><+!rc*/z?sLTv)J7(|Fi\x7bC\x7dfI31tlu[neoZ5Yxjya]2ESwqkP6h9d4VpOGbUAKXHm8RD#$Bg0MNWQ%&@"

/-- `char_maps::SOLID`: one solid block. -/
def SOLID : String := "█"

/-- `char_maps::DOTTED`: one dotted block. -/
def DOTTED : String := "⣿"

/-- `char_maps::GRADIENT`: 5 block-gradient characters. -/
def GRADIENT : String := " ░▒▓█"

/-- `char_maps::BLACKWHITE`: space and solid block. -/
def BLACKWHITE : String := " █"

/-- `char_maps::BW_DOTTED`: space and dotted block. -/
def BW_DOTTED : String := " ⣿"

/-- `char_maps::BRAILLE`: braille-based ramp. -/
def BRAILLE : String := " ··⣀⣀⣤⣤⣤⣀⡀⢀⠠⠔⠒⠑⠊⠉⠁"

/-- The quantizer state of `src/pipeline/image_pipeline.rs`.

The Rust struct has fields `target_resolution: (u32, u32)` and
`char_map: Vec<char>`.  The `new_lines` flag is referenced by
`Runner::process_frame` (`src/pipeline/runner.rs`) as
`self.pipeline.new_lines` but is absent from the `ImagePipeline`
definition shipped under `src/`.  Modelled from the spec: the missing
flag controls appending of row-separator bytes; the spec (§4.2) states
"The RGB buffer is passed through verbatim alongside the glyph string",
i.e. the flag is `false` in the specified configuration. -/
structure ImagePipeline where
  target_resolution : Nat × Nat
  char_map : List Char
  new_lines : Bool
  deriving DecidableEq, Repr

/-- `ImagePipeline::set_target_resolution`. -/
def ImagePipeline.set_target_resolution (p : ImagePipeline) (width height : Nat) :
    ImagePipeline :=
  { p with target_resolution := (width, height) }

/-- `ImagePipeline::to_ascii`: for each cell of the grayscale input, in
row-major order (`y` outer, `x` inner), look up
`char_map[char_map.len() * lum / (u8::MAX + 1)]`.  The Rust indexing
panics out of bounds; here `getD` with default `' '` is used, and the
in-bounds fact is proved separately. -/
def ImagePipeline.to_ascii (p : ImagePipeline) (input : GrayImage) : List Char :=
  (List.range input.height).flatMap fun y =>
    (List.range input.width).map fun x =>
      p.char_map.getD (p.char_map.length * input.get_pixel x y / 256) ' '

/-! Helper lemmas about flattened row-major iteration. -/

theorem range_bind_range_map {α : Type} (h w : Nat) (g : Nat → α) :
    ((List.range h).flatMap fun y => (List.range w).map fun x => g (y * w + x))
      = (List.range (h * w)).map g := by
  induction h with
  | zero => simp
  | succ n ih =>
    rw [List.range_succ, List.flatMap_append, ih, Nat.succ_mul, List.range_add,
      List.map_append, List.map_map]
    simp [Function.comp]

theorem range_length_map_getD {α β : Type} (l : List α) (d : α) (f : α → β) :
    (List.range l.length).map (fun i => f (l.getD i d)) = l.map f := by
  induction l with
  | nil => simp
  | cons a t ih =>
    rw [List.length_cons, List.range_succ_eq_map]
    simp only [List.map_cons, List.map_map, List.getD_cons_zero]
    refine congrArg (f a :: ·) ?_
    have hfun : ((fun i => f ((a :: t).getD i d)) ∘ Nat.succ)
        = fun i => f (t.getD i d) := by
      funext i
      simp [List.getD_cons_succ]
    rw [hfun, ih]

theorem getD_mem_of_lt {α : Type} {l : List α} {n : Nat} {d : α}
    (h : n < l.length) : l.getD n d ∈ l := by
  induction l generalizing n with
  | nil => simp at h
  | cons a t ih =>
    cases n with
    | zero => simp
    | succ m =>
      simp only [List.getD_cons_succ]
      exact List.mem_cons_of_mem _ (ih (by simpa using h))

/-- The luminance bucket index is always in range. -/
theorem bucket_lt (K lum : Nat) (hK : 1 ≤ K) (hl : lum ≤ 255) :
    K * lum / 256 < K := by
  have h1 : K * lum < K * 256 := by
    calc K * lum ≤ K * 255 := Nat.mul_le_mul_left K hl
      _ < K * 256 := by
          exact mul_lt_mul_of_pos_left (by norm_num) hK
  exact (Nat.div_lt_iff_lt_mul (by norm_num)).2 (by simpa [Nat.mul_comm] using h1)

/-- `to_ascii` visits the row-major cell indices `0, 1, …, h·w - 1` in
order. -/
theorem to_ascii_eq_range_map (p : ImagePipeline) (img : GrayImage) :
    p.to_ascii img
      = (List.range (img.height * img.width)).map
          (fun i => p.char_map.getD (p.char_map.length * (img.data.getD i 0) / 256) ' ') := by
  simpa [ImagePipeline.to_ascii, GrayImage.get_pixel] using
    range_bind_range_map img.height img.width
      (fun i => p.char_map.getD (p.char_map.length * (img.data.getD i 0) / 256) ' ')

/-- `to_ascii` output length is one glyph per target cell, with no
dependence on the pixel buffer contents. -/
theorem to_ascii_length (p : ImagePipeline) (img : GrayImage) :
    (p.to_ascii img).length = img.height * img.width := by
  rw [to_ascii_eq_range_map]
  simp

/-- On a well-formed buffer, `to_ascii` is exactly the bucket map over the
row-major pixel list: one glyph per pixel, in order, no separators. -/
theorem to_ascii_eq_map (p : ImagePipeline) (img : GrayImage)
    (hdata : img.data.length = img.width * img.height) :
    p.to_ascii img
      = img.data.map fun lum =>
          p.char_map.getD (p.char_map.length * lum / 256) ' ' := by
  have hm := range_length_map_getD img.data 0
    (fun lum => p.char_map.getD (p.char_map.length * lum / 256) ' ')
  rw [hdata, Nat.mul_comm] at hm
  rw [to_ascii_eq_range_map]
  exact hm

/-- C1: for every grayscale input image and character map of length
`K ≥ 1`, `to_ascii` maps each pixel of luminance `L ∈ [0, 255]` to the
glyph `char_map[K * L / 256]`; that index always lies in `[0, K)` so the
lookup never goes out of bounds, and the glyph string has exactly
`width * height` characters in row-major order with no separator
characters (every output character is a glyph of the map). -/
theorem to_ascii_bucket_correct (p : ImagePipeline) (img : GrayImage)
    (hK : 1 ≤ p.char_map.length)
    (hdata : img.data.length = img.width * img.height)
    (hpix : ∀ l ∈ img.data, l ≤ 255) :
    (p.to_ascii img).length = img.width * img.height
    ∧ p.to_ascii img
        = img.data.map (fun lum =>
            p.char_map.getD (p.char_map.length * lum / 256) ' ')
    ∧ (∀ lum : Nat, lum ≤ 255 →
        p.char_map.length * lum / 256 < p.char_map.length)
    ∧ (∀ c ∈ p.to_ascii img, c ∈ p.char_map) := by
  refine ⟨?_, to_ascii_eq_map p img hdata, ?_, ?_⟩
  · rw [to_ascii_length, Nat.mul_comm]
  · intro lum hl
    exact bucket_lt _ lum hK hl
  · intro c hc
    rw [to_ascii_eq_map p img hdata] at hc
    rcases List.mem_map.1 hc with ⟨lum, hlum, rfl⟩
    exact getD_mem_of_lt (bucket_lt _ lum hK (hpix lum hlum))

/-- Concrete quantizer for the C1 witness: 10-glyph default ramp,
8×2 target. -/
def pipeC1 : ImagePipeline :=
  { target_resolution := (8, 2), char_map := CHARS1.toList, new_lines := false }

/-- Concrete 2×2 grayscale image for the C1 witness. -/
def imgC1 : GrayImage := { width := 2, height := 2, data := [0, 255, 128, 64] }

/-- C1 witness: the hypotheses of `to_ascii_bucket_correct` hold at the
concrete 2×2 image and 10-glyph map, and the theorem applies there. -/
theorem to_ascii_bucket_correct_witness :
    (1 ≤ pipeC1.char_map.length
      ∧ imgC1.data.length = imgC1.width * imgC1.height
      ∧ (∀ l ∈ imgC1.data, l ≤ 255))
    ∧ ((pipeC1.to_ascii imgC1).length = imgC1.width * imgC1.height
      ∧ pipeC1.to_ascii imgC1
          = imgC1.data.map (fun lum =>
              pipeC1.char_map.getD (pipeC1.char_map.length * lum / 256) ' ')
      ∧ (∀ lum : Nat, lum ≤ 255 →
          pipeC1.char_map.length * lum / 256 < pipeC1.char_map.length)
      ∧ (∀ c ∈ pipeC1.to_ascii imgC1, c ∈ pipeC1.char_map)) :=
  ⟨⟨by decide, by decide, by decide⟩,
    to_ascii_bucket_correct pipeC1 imgC1 (by decide) (by decide) (by decide)⟩

/-! Resize and frame processing (`image_pipeline.rs`, `runner.rs`). -/

/-- Error text stand-ins for `common/errors.rs` constants. -/
def ERROR_DATA : String := "Data error"

/-- `common/errors.rs` resize error constant. -/
def ERROR_RESIZE : String := "Resize error"

/-- Nearest-neighbour source index for one axis, as computed by the
delegated `fast_image_resize` crate with `ResizeAlg::Nearest`
(spec §4.2: "nearest-neighbor sampling"): the source coordinate nearest
to the centre of destination cell `x`, i.e. `⌊(x + 1/2) · src/dst⌋`. -/
def nearest_coord (x src dst : Nat) : Nat :=
  (2 * x + 1) * src / (2 * dst)

/-- `ImagePipeline::resize`: check the four zero-dimension error cases and
the source-buffer size (exactly as `fr::Image::from_vec_u8` does), then
produce the target-sized image by nearest-neighbour sampling of the RGB
buffer. -/
def ImagePipeline.resize (p : ImagePipeline) (img : RgbImage) :
    Except String RgbImage :=
  if img.width = 0 then .error ERROR_DATA
  else if img.height = 0 then .error ERROR_DATA
  else if img.data.length ≠ img.width * img.height then .error ERROR_RESIZE
  else if p.target_resolution.1 = 0 then .error ERROR_DATA
  else if p.target_resolution.2 = 0 then .error ERROR_DATA
  else .ok
    { width := p.target_resolution.1
      height := p.target_resolution.2
      data :=
        (List.range p.target_resolution.2).flatMap fun y =>
          (List.range p.target_resolution.1).map fun x =>
            img.data.getD
              (nearest_coord y img.height p.target_resolution.2 * img.width
                + nearest_coord x img.width p.target_resolution.1)
              (0, 0, 0) }

/-- Per-pixel RGB → luminance byte of the delegated `image` crate
(`into_luma8`): BT.709 coefficients in fixed-point,
`(2126·R + 7152·G + 722·B) / 10000`. -/
def luma (c : Rgb) : Nat :=
  (2126 * c.1 + 7152 * c.2.1 + 722 * c.2.2) / 10000

/-- `DynamicImage::into_luma8`: same dimensions, each pixel mapped to its
luminance byte. -/
def RgbImage.into_luma8 (img : RgbImage) : GrayImage :=
  { width := img.width, height := img.height, data := img.data.map luma }

/-- `ImageBuffer::to_vec` on an RGB8 image: the flat row-major byte buffer,
three bytes per pixel. -/
def RgbImage.to_vec (img : RgbImage) : List Nat :=
  img.data.flatMap fun c => [c.1, c.2.1, c.2.2]

/-- `StringInfo = (String, Vec<u8>)` (`main.rs`): glyph string plus RGB
byte buffer. -/
abbrev StringInfo := List Char × List Nat

/-- Playback state of the pipeline runner (`runner.rs`). -/
inductive State where
  | Running
  | Paused
  | Stopped
  deriving DecidableEq, Repr

/-- `pipeline::runner::Control`: commands consumed by the pipeline. -/
inductive Control where
  | PauseContinue
  | Exit
  | SetCharMap (k : Nat)
  | Resize (w h : Nat)
  | SetGrayscale (b : Bool)
  deriving DecidableEq, Repr

/-- The frame sources of `pipeline/frames.rs`.  The `Video` variant wraps
an external OpenCV `VideoCapture`; it is abstracted as the list of frames
the decoder has yet to deliver. -/
inductive FrameIterator where
  | Image (img : Option RgbImage)
  | Video (remaining : List RgbImage)
  | AnimatedImage (frames : List RgbImage) (current_frame : Nat)
  deriving DecidableEq, Repr

/-- `Iterator::next` for `FrameIterator`: `Image` takes its single frame;
`Video` delivers the decoder's next frame; `AnimatedImage` returns `None`
when the cursor sits at `frames.len() - 1`, otherwise increments the
cursor first and then reads the frame at the new cursor. -/
def FrameIterator.next : FrameIterator → Option RgbImage × FrameIterator
  | .Image img => (img, .Image none)
  | .Video [] => (none, .Video [])
  | .Video (f :: rest) => (some f, .Video rest)
  | .AnimatedImage frames current_frame =>
    if current_frame = frames.length - 1 then
      (none, .AnimatedImage frames current_frame)
    else
      (frames.get? (current_frame + 1), .AnimatedImage frames (current_frame + 1))

/-- `FrameIterator::skip_frames`: no-op for images, advance the decoder
for videos, cursor bump modulo the frame count for animations. -/
def FrameIterator.skip_frames : FrameIterator → Nat → FrameIterator
  | .Image img, _ => .Image img
  | .Video rem, n => .Video (rem.drop n)
  | .AnimatedImage frames current_frame, n =>
    .AnimatedImage frames ((current_frame + n) % frames.length)

/-- The pipeline runner state (`runner.rs`).  The two channel endpoints
(`tx_frames`, `rx_controls`) are communication handles and live in the
run-loop model instead. -/
structure Runner where
  pipeline : ImagePipeline
  media : FrameIterator
  fps : ℚ
  state : State
  w_mod : Nat
  char_maps : List (List Char)
  last_frame : Option RgbImage
  deriving DecidableEq, Repr

/-- `Runner::init`: registers the ten character maps (the configured map
first, then the nine built-ins) and starts `Running` with no cached
frame. -/
def Runner.init (pipeline : ImagePipeline) (media : FrameIterator) (fps : ℚ)
    (w_mod : Nat) : Runner :=
  { pipeline := pipeline
    media := media
    fps := fps
    state := .Running
    w_mod := w_mod
    char_maps :=
      [pipeline.char_map, CHARS1.toList, CHARS2.toList, CHARS3.toList,
        SOLID.toList, DOTTED.toList, GRADIENT.toList, BLACKWHITE.toList,
        BW_DOTTED.toList, BRAILLE.toList]
    last_frame := none }

/-- `Runner::process_frame`: resize the frame, split into grayscale and
RGB buffers, quantize to glyphs; when `new_lines` is set, splice six zero
bytes after every `target_resolution.0` RGB pixels. -/
def Runner.process_frame (r : Runner) (frame : RgbImage) :
    Except String StringInfo :=
  match r.pipeline.resize frame with
  | .error e => .error e
  | .ok procimage =>
    let grayimage := procimage.into_luma8
    let rgb_info := procimage.to_vec
    if r.pipeline.new_lines then
      let rgb_info_newline :=
        (rgb_info.toChunks 3).enum.flatMap fun ip =>
          if (ip.1 + 1) % r.pipeline.target_resolution.1 = 0 then
            ip.2 ++ [0, 0, 0, 0, 0, 0]
          else
            ip.2
      .ok (r.pipeline.to_ascii grayimage, rgb_info_newline)
    else
      .ok (r.pipeline.to_ascii grayimage, rgb_info)

/-- Length of a row-major double loop: `h` rows of `w` cells. -/
theorem length_range_flatMap_map {α : Type} (h w : Nat) (f : Nat → Nat → α) :
    ((List.range h).flatMap fun y => (List.range w).map fun x => f y x).length
      = h * w := by
  induction h with
  | zero => simp
  | succ n ih =>
    rw [List.range_succ, List.flatMap_append, List.length_append, ih]
    simp [Nat.succ_mul]

/-- A successful `resize` returns an image of exactly the target
dimensions with one pixel per target cell. -/
theorem resize_ok_dims (p : ImagePipeline) (img out : RgbImage)
    (h : p.resize img = .ok out) :
    out.width = p.target_resolution.1
    ∧ out.height = p.target_resolution.2
    ∧ out.data.length = p.target_resolution.2 * p.target_resolution.1 := by
  unfold ImagePipeline.resize at h
  split at h
  · exact absurd h (by simp)
  split at h
  · exact absurd h (by simp)
  split at h
  · exact absurd h (by simp)
  split at h
  · exact absurd h (by simp)
  split at h
  · exact absurd h (by simp)
  rw [Except.ok.injEq] at h
  subst h
  exact ⟨rfl, rfl, length_range_flatMap_map _ _ _⟩

/-- Flattening triples gives three bytes per pixel. -/
theorem to_vec_length (img : RgbImage) :
    img.to_vec.length = 3 * img.data.length := by
  unfold RgbImage.to_vec
  induction img.data with
  | nil => simp
  | cons c t ih => simp [ih, Nat.mul_add]

/-- C2: with the spec-mandated verbatim RGB pass-through
(`new_lines = false`), every artifact produced by `process_frame`
satisfies `len(glyphs) = len(colors)/3 = W·H` for the target resolution
`(W, H)` in effect when the frame was processed. -/
theorem process_frame_artifact_dims (r : Runner) (frame : RgbImage)
    (hnl : r.pipeline.new_lines = false)
    (g : List Char) (c : List Nat)
    (h : r.process_frame frame = .ok (g, c)) :
    g.length = r.pipeline.target_resolution.1 * r.pipeline.target_resolution.2
    ∧ c.length = 3 * (r.pipeline.target_resolution.1 * r.pipeline.target_resolution.2)
    ∧ c.length / 3 = g.length := by
  unfold Runner.process_frame at h
  rcases hres : r.pipeline.resize frame with e | procimage
  · rw [hres] at h
    exact absurd h (by simp)
  · rw [hres] at h
    rw [hnl] at h
    simp only [Bool.false_eq_true, if_false, Except.ok.injEq, Prod.mk.injEq] at h
    obtain ⟨hg, hc⟩ := h
    obtain ⟨hw, hh, hlen⟩ := resize_ok_dims _ _ _ hres
    have hglen : g.length
        = r.pipeline.target_resolution.1 * r.pipeline.target_resolution.2 := by
      rw [← hg, to_ascii_length]
      simp [RgbImage.into_luma8, hw, hh, Nat.mul_comm]
    have hclen : c.length
        = 3 * (r.pipeline.target_resolution.1 * r.pipeline.target_resolution.2) := by
      rw [← hc, to_vec_length, hlen, Nat.mul_comm r.pipeline.target_resolution.2]
    refine ⟨hglen, hclen, ?_⟩
    rw [hclen, hglen, Nat.mul_div_cancel_left _ (by norm_num)]

/-- Concrete quantizer for the C2 witness. -/
def pipeC2 : ImagePipeline :=
  { target_resolution := (8, 2), char_map := CHARS1.toList, new_lines := false }

/-- Concrete runner for the C2 witness. -/
def rC2 : Runner := Runner.init pipeC2 (.Image none) 30 1

/-- Concrete 2×2 input frame for the C2 witness (black, white, mid grey,
dark grey). -/
def frameC2 : RgbImage :=
  { width := 2, height := 2
    data := [(0, 0, 0), (255, 255, 255), (128, 128, 128), (64, 64, 64)] }

/-- The artifact `process_frame` produces for the C2 witness input. -/
def artC2 : StringInfo := ((rC2.process_frame frameC2).toOption).getD ([], [])

/-- C2 witness: at the concrete runner and frame the hypotheses of
`process_frame_artifact_dims` hold and the invariant follows. -/
theorem process_frame_artifact_dims_witness :
    (rC2.pipeline.new_lines = false
      ∧ rC2.process_frame frameC2 = .ok (artC2.1, artC2.2))
    ∧ (artC2.1.length
        = rC2.pipeline.target_resolution.1 * rC2.pipeline.target_resolution.2
      ∧ artC2.2.length
        = 3 * (rC2.pipeline.target_resolution.1 * rC2.pipeline.target_resolution.2)
      ∧ artC2.2.length / 3 = artC2.1.length) :=
  ⟨⟨by decide, by rfl⟩,
    process_frame_artifact_dims rC2 frameC2 (by decide) artC2.1 artC2.2 (by rfl)⟩

/-! Control handling and the run loop (`runner.rs`). -/

/-- `Runner::toggle_pause`: `Running ↔ Paused`, anything else unchanged. -/
def Runner.toggle_pause (r : Runner) : Runner :=
  match r.state with
  | .Running => { r with state := .Paused }
  | .Paused => { r with state := .Running }
  | .Stopped => r

/-- `Runner::resize_pipeline`: set the quantizer target resolution to
`(width / w_mod, height)`. -/
def Runner.resize_pipeline (r : Runner) (width height : Nat) : Runner :=
  { r with pipeline := r.pipeline.set_target_resolution (width / r.w_mod) height }

/-- `Runner::set_char_map`: select `char_maps[index mod char_maps.len()]`. -/
def Runner.set_char_map (r : Runner) (char_map : Nat) : Runner :=
  { r with pipeline :=
      { r.pipeline with
          char_map := r.char_maps.getD (char_map % r.char_maps.length) [] } }

/-- One drained control command, as dispatched by
`Runner::process_control_commands`. -/
def Runner.apply_control (r : Runner) : Control → Runner
  | .PauseContinue => r.toggle_pause
  | .Exit => { r with state := .Stopped }
  | .Resize width height => r.resize_pipeline width height
  | .SetCharMap char_map => r.set_char_map char_map
  | .SetGrayscale _ => r

/-- `Runner::process_control_commands` applied to the commands drained in
one loop iteration, in arrival order. -/
def Runner.apply_controls (r : Runner) (cs : List Control) : Runner :=
  cs.foldl (fun acc c => acc.apply_control c) r

/-- `Runner::time_to_send_next_frame`.  The target period is
`Duration::from_nanos(1_000_000_000_u64 / self.fps as u64)`: the `f64`
frame rate is truncated to an integer (`as u64`) and the nanosecond count
divided by it (integer division).  When at least one period has elapsed,
`frames_to_skip = elapsed / period - 1` and the next-tick instant is
advanced by `period * (frames_to_skip as u32 + 1)` (the skip count is
truncated to `u32`, modelled by `% 2^32`).  Returns
`(send now?, frames_to_skip, tick advancement in ns)`.  Faithful for
`1 ≤ ⌊fps⌋ ≤ 10^9`; outside that range the Rust code panics on a
division by zero. -/
def time_to_send_next_frame (fps : ℚ) (elapsed_ns : Nat) : Bool × Nat × Nat :=
  let fps_u64 : Nat := (⌊fps⌋).toNat
  let target_ns : Nat := 1000000000 / fps_u64
  if target_ns ≤ elapsed_ns then
    let frames_to_skip : Nat := elapsed_ns / target_ns - 1
    (true, frames_to_skip, target_ns * (frames_to_skip % 4294967296 + 1))
  else
    (false, 0, 0)

/-- `Runner::should_process_frame`: combine the time gate with the
playback state (`Running` or `Paused` process, `Stopped` does not). -/
def should_process_frame (state : State) (fps : ℚ) (elapsed_ns : Nat) :
    Bool × Nat :=
  let gate := time_to_send_next_frame fps elapsed_ns
  if gate.1 ∧ (state = .Running ∨ state = .Paused) then (true, gate.2.1)
  else (false, 0)

/-- `Runner::get_current_frame`: pull from the media source while
`Running`; reuse `last_frame` while `Paused` or `Stopped`. -/
def Runner.get_current_frame (r : Runner) : Option RgbImage × Runner :=
  match r.state with
  | .Running =>
    let n := r.media.next
    (n.1, { r with media := n.2 })
  | .Paused => (r.last_frame, r)
  | .Stopped => (r.last_frame, r)

/-- `Runner::process_current_frame`: quantize the frame (caching it as
`last_frame`); with no fresh frame, re-quantize `last_frame` only when a
refresh is pending.  Quantization errors yield `None` (frame dropped). -/
def Runner.process_current_frame (r : Runner) (frame : Option RgbImage)
    (refresh : Bool) : Option StringInfo × Runner :=
  match frame with
  | some frame =>
    let r1 : Runner := { r with last_frame := some frame }
    match r1.process_frame frame with
    | .ok string_info => (some string_info, r1)
    | .error _ => (none, r1)
  | none =>
    if r.last_frame.isSome && refresh then
      match r.last_frame with
      | some lf =>
        match r.process_frame lf with
        | .ok string_info => (some string_info, r)
        | .error _ => (none, r)
      | none => (none, r)
    else (none, r)

/-- The environment of one `Runner::run` loop iteration: the control
commands drained from `rx_controls`, the monotonic-clock reading, whether
the 5 ms readiness probe (`select! send(None)`) succeeded, and whether
the bounded channel had room for the follow-up `try_send`. -/
structure EnvStep where
  controls : List Control
  now : Nat
  terminal_ready : Bool
  channel_has_room : Bool
  deriving DecidableEq, Repr

/-- `select!`'s default timeout in `Runner::run`, milliseconds. -/
def select_default_timeout_ms : Nat := 5

/-- `Runner::run` as a state machine over a finite environment trace:
returns the final runner, the final next-tick instant, and the sequence
of messages sent on the bounded `frames` channel (the `None` readiness
probes and the `try_send` payloads, in order).  The loop exits as soon as
the state is `Stopped`. -/
def Runner.run_model (allow_frame_skip : Bool) :
    Runner → Nat → List EnvStep → Runner × Nat × List (Option StringInfo)
  | r, time_count, [] => (r, time_count, [])
  | r, time_count, e :: rest =>
    if r.state = .Stopped then (r, time_count, [])
    else
      let frame_needs_refresh := !e.controls.isEmpty
      let r1 := r.apply_controls e.controls
      let elapsed_ns := e.now - time_count
      let gate := time_to_send_next_frame r1.fps elapsed_ns
      let time_count1 := time_count + gate.2.2
      let sp := should_process_frame r1.state r1.fps elapsed_ns
      if sp.1 then
        let r2 := if sp.2 > 0 && allow_frame_skip then
            { r1 with media := r1.media.skip_frames sp.2 }
          else r1
        let fr := r2.get_current_frame
        if e.terminal_ready then
          let pc := fr.2.process_current_frame fr.1 frame_needs_refresh
          let msgs := (none : Option StringInfo)
            :: (if e.channel_has_room then [pc.1] else [])
          let rec_result := Runner.run_model allow_frame_skip pc.2 time_count1 rest
          (rec_result.1, rec_result.2.1, msgs ++ rec_result.2.2)
        else
          Runner.run_model allow_frame_skip fr.2 time_count1 rest
      else
        Runner.run_model allow_frame_skip r1 time_count1 rest

/-- C9: `Resize` is idempotent — processing `Resize(w, h)` sets the
quantizer target resolution to `(w / w_mod, h)`, processing it twice
leaves the runner in exactly the state of processing it once, and all
subsequent artifacts coincide. -/
theorem resize_idempotent (r : Runner) (w h : Nat) :
    (r.apply_control (.Resize w h)).pipeline.target_resolution = (w / r.w_mod, h)
    ∧ (r.apply_control (.Resize w h)).apply_control (.Resize w h)
        = r.apply_control (.Resize w h)
    ∧ ∀ frame : RgbImage,
        ((r.apply_control (.Resize w h)).apply_control (.Resize w h)).process_frame
            frame
          = (r.apply_control (.Resize w h)).process_frame frame := by
  have h2 : (r.apply_control (.Resize w h)).apply_control (.Resize w h)
      = r.apply_control (.Resize w h) := rfl
  exact ⟨rfl, h2, fun frame => by rw [h2]⟩

/-- C6: `SetCharMap(k)` selects `char_maps[k mod 10]` (ten registered
maps), so `SetCharMap(k)` and `SetCharMap(k + 10)` produce the same
runner state and byte-identical artifacts on every input frame. -/
theorem set_char_map_mod_cycle (p : ImagePipeline) (m : FrameIterator)
    (fps : ℚ) (w k : Nat) :
    (Runner.init p m fps w).char_maps.length = 10
    ∧ ((Runner.init p m fps w).apply_control (.SetCharMap k)).pipeline.char_map
        = (Runner.init p m fps w).char_maps.getD (k % 10) []
    ∧ (Runner.init p m fps w).apply_control (.SetCharMap k)
        = (Runner.init p m fps w).apply_control (.SetCharMap (k + 10))
    ∧ ∀ frame : RgbImage,
        ((Runner.init p m fps w).apply_control (.SetCharMap k)).process_frame frame
          = ((Runner.init p m fps w).apply_control
              (.SetCharMap (k + 10))).process_frame frame := by
  have h3 : (Runner.init p m fps w).apply_control (.SetCharMap k)
      = (Runner.init p m fps w).apply_control (.SetCharMap (k + 10)) := by
    simp only [Runner.apply_control, Runner.set_char_map]
    rw [show (Runner.init p m fps w).char_maps.length = 10 from rfl,
      Nat.add_mod_right]
  exact ⟨rfl, rfl, h3, fun frame => by rw [h3]⟩

/-- C7: `Stopped` is absorbing — no control command (in particular
`PauseContinue`) changes the state once it is `Stopped`, and the run loop
then terminates immediately, producing no further frames. -/
theorem stopped_absorbing :
    (∀ (r : Runner) (c : Control), r.state = .Stopped →
        (r.apply_control c).state = .Stopped)
    ∧ (∀ r : Runner, r.state = .Stopped →
        (r.apply_control .PauseContinue).state = .Stopped)
    ∧ (∀ (r : Runner) (cs : List Control), r.state = .Stopped →
        (r.apply_controls cs).state = .Stopped)
    ∧ (∀ (allow : Bool) (r : Runner) (tc : Nat) (envs : List EnvStep),
        r.state = .Stopped →
          Runner.run_model allow r tc envs = (r, tc, [])) := by
  have habs : ∀ (r : Runner) (c : Control), r.state = .Stopped →
      (r.apply_control c).state = .Stopped := by
    intro r c h
    cases c with
    | PauseContinue => simp [Runner.apply_control, Runner.toggle_pause, h]
    | Exit => rfl
    | SetCharMap k => simpa [Runner.apply_control, Runner.set_char_map] using h
    | Resize w hh =>
      simpa [Runner.apply_control, Runner.resize_pipeline,
        ImagePipeline.set_target_resolution] using h
    | SetGrayscale b => exact h
  have hlist : ∀ (cs : List Control) (r : Runner), r.state = .Stopped →
      (r.apply_controls cs).state = .Stopped := by
    intro cs
    induction cs with
    | nil => intro r h; exact h
    | cons c t ih => intro r h; exact ih _ (habs r c h)
  refine ⟨habs, fun r h => habs r .PauseContinue h, fun r cs h => hlist cs r h, ?_⟩
  intro allow r tc envs h
  cases envs with
  | nil => rfl
  | cons e rest => simp [Runner.run_model, h]

/-- Concrete stopped runner for the C7 witness. -/
def rC7 : Runner := { Runner.init pipeC2 (.Image none) 30 1 with state := .Stopped }

/-- Concrete environment step for the C7 witness. -/
def envC7 : EnvStep :=
  { controls := [.PauseContinue], now := 1000000000,
    terminal_ready := true, channel_has_room := true }

/-- C7 witness: a concretely stopped runner stays stopped under
`PauseContinue` and the run loop yields nothing on a non-trivial
environment trace. -/
theorem stopped_absorbing_witness :
    rC7.state = .Stopped
    ∧ (rC7.apply_control .PauseContinue).state = .Stopped
    ∧ (rC7.apply_controls [.PauseContinue, .Exit, .Resize 80 24]).state = .Stopped
    ∧ Runner.run_model true rC7 0 [envC7] = (rC7, 0, []) :=
  ⟨rfl, stopped_absorbing.2.1 rC7 rfl,
    stopped_absorbing.2.2.1 rC7 [.PauseContinue, .Exit, .Resize 80 24] rfl,
    stopped_absorbing.2.2.2 true rC7 0 [envC7] rfl⟩

/-! The frame-source iterator (`frames.rs`), claim C5. -/

/-- The sequence of results of `k` successive `next()` calls. -/
def FrameIterator.outputs : FrameIterator → Nat → List (Option RgbImage)
  | _, 0 => []
  | it, k + 1 =>
    let n := it.next
    n.1 :: n.2.outputs k

/-- Concrete single-frame animation payload for the C5 counterexample. -/
def imgC5 : RgbImage := { width := 1, height := 1, data := [(7, 7, 7)] }

/-- Second frame for the C5 witness. -/
def imgC5b : RgbImage := { width := 1, height := 1, data := [(9, 9, 9)] }

/-- C5 counterexample: a single-frame `AnimatedImage` with its cursor at 0
returns `None` from the very first `next()` call — the one stored frame is
never yielded, contradicting the claim that iteration begins with the
frame at index 0. -/
theorem animated_single_frame_cx :
    (FrameIterator.AnimatedImage [imgC5] 0).next.1 = none
    ∧ (FrameIterator.AnimatedImage [imgC5] 0).next.1 ≠ some imgC5 := by
  exact ⟨rfl, by decide⟩

/-- C5 (amended): from any in-range cursor `c`, the iterator yields the
stored frames from index `c + 1` on (the frame at the cursor itself —
in particular frame 0 at start-up — is skipped), in order, and then
`None`; a single-frame animation therefore yields no frame at all. -/
theorem animated_outputs_from (fs : List RgbImage) (c : Nat) (h : c < fs.length) :
    (FrameIterator.AnimatedImage fs c).outputs (fs.length - c)
      = (fs.drop (c + 1)).map some ++ [none] := by
  generalize hk : fs.length - c = k
  induction k generalizing c with
  | zero => omega
  | succ n ih =>
    by_cases hc : c = fs.length - 1
    · have hn : n = 0 := by omega
      subst hn
      have hdrop : fs.drop (c + 1) = [] :=
        List.drop_eq_nil_of_le (by omega)
      simp only [FrameIterator.outputs, FrameIterator.next, if_pos hc, hdrop]
      simp
    · have hc1 : c + 1 < fs.length := by omega
      have hn : fs.length - (c + 1) = n := by omega
      have hget : fs.get? (c + 1) = some (fs.get ⟨c + 1, hc1⟩) :=
        List.get?_eq_get hc1
      have hdrop : fs.drop (c + 1) = fs.get ⟨c + 1, hc1⟩ :: fs.drop (c + 2) := by
        simpa using List.drop_eq_getElem_cons hc1
      have hih := ih (c + 1) hc1 hn
      simp only [FrameIterator.outputs, FrameIterator.next, if_neg hc, hget]
      rw [hih, hdrop, List.map_cons, List.cons_append]

/-- C5 witness for the amended statement: a two-frame animation started at
cursor 0 yields the second frame, then `None`. -/
theorem animated_outputs_from_witness :
    (0 < ([imgC5, imgC5b] : List RgbImage).length)
    ∧ (FrameIterator.AnimatedImage [imgC5, imgC5b] 0).outputs 2
        = ([imgC5, imgC5b].drop 1).map some ++ [none] :=
  ⟨by decide, animated_outputs_from [imgC5, imgC5b] 0 (by decide)⟩

/-! The frame-time gate (`runner.rs`), claim C3. -/

/-- C3 counterexample: for the positive real frame rate `fps = 5/2` the
claimed period is `1/fps = 0.4 s = 400 000 000 ns`, and an elapsed time of
450 000 000 ns exceeds it; but the code truncates `fps` to the integer 2
and uses the period `10⁹/2 = 500 000 000 ns`, so the gate refuses to
process a frame. -/
theorem time_gate_period_cx :
    time_to_send_next_frame ((5 : ℚ) / 2) 450000000 = (false, 0, 0)
    ∧ (1 / ((5 : ℚ) / 2)) * 1000000000 = 400000000
    ∧ 400000000 ≤ 450000000 := by
  have hf : (⌊(5 : ℚ) / 2⌋ : ℤ) = 2 := by
    norm_num [Int.floor_eq_iff]
  refine ⟨?_, by norm_num, by norm_num⟩
  simp only [time_to_send_next_frame, hf]
  decide

/-- C3 (amended): the gate's period is `10⁹ / ⌊fps⌋` nanoseconds (the
`f64` rate truncated to an integer, then integer division) — not `1/fps`.
With that period, and for skip counts below `2³²`: if less than one
period has elapsed, no frame is processed; otherwise
`frames_to_skip = ⌊elapsed / period⌋ - 1` and the next-tick instant
advances by exactly `(frames_to_skip + 1) · period`. -/
theorem time_gate_amended (fps : ℚ) (elapsed_ns : Nat)
    (h1 : 1 ≤ (⌊fps⌋).toNat) (h2 : (⌊fps⌋).toNat ≤ 1000000000)
    (h3 : elapsed_ns / (1000000000 / (⌊fps⌋).toNat) < 4294967296) :
    (elapsed_ns < 1000000000 / (⌊fps⌋).toNat →
        time_to_send_next_frame fps elapsed_ns = (false, 0, 0)
        ∧ ∀ st : State, should_process_frame st fps elapsed_ns = (false, 0))
    ∧ (1000000000 / (⌊fps⌋).toNat ≤ elapsed_ns →
        time_to_send_next_frame fps elapsed_ns
          = (true, elapsed_ns / (1000000000 / (⌊fps⌋).toNat) - 1,
              (elapsed_ns / (1000000000 / (⌊fps⌋).toNat) - 1 + 1)
                * (1000000000 / (⌊fps⌋).toNat))) := by
  constructor
  · intro hlt
    have hgate : time_to_send_next_frame fps elapsed_ns = (false, 0, 0) := by
      simp [time_to_send_next_frame, Nat.not_le.2 hlt]
    refine ⟨hgate, fun st => ?_⟩
    simp [should_process_frame, hgate]
  · intro hge
    have hmod : elapsed_ns / (1000000000 / (⌊fps⌋).toNat) - 1 < 4294967296 := by
      omega
    simp only [time_to_send_next_frame, if_pos hge]
    rw [Nat.mod_eq_of_lt hmod, Nat.mul_comm]

/-- C3 witness: at `fps = 30` the truncated period is 33 333 333 ns; after
100 000 000 ns three periods have passed, two frames are skipped and the
tick advances by `3 × 33 333 333` ns. -/
theorem time_gate_amended_witness :
    (1 ≤ (⌊(30 : ℚ)⌋).toNat ∧ (⌊(30 : ℚ)⌋).toNat ≤ 1000000000
      ∧ 100000000 / (1000000000 / (⌊(30 : ℚ)⌋).toNat) < 4294967296)
    ∧ ((100000000 < 1000000000 / (⌊(30 : ℚ)⌋).toNat →
          time_to_send_next_frame 30 100000000 = (false, 0, 0)
          ∧ ∀ st : State, should_process_frame st 30 100000000 = (false, 0))
      ∧ (1000000000 / (⌊(30 : ℚ)⌋).toNat ≤ 100000000 →
          time_to_send_next_frame 30 100000000
            = (true, 100000000 / (1000000000 / (⌊(30 : ℚ)⌋).toNat) - 1,
                (100000000 / (1000000000 / (⌊(30 : ℚ)⌋).toNat) - 1 + 1)
                  * (1000000000 / (⌊(30 : ℚ)⌋).toNat)))) :=
  ⟨⟨by norm_num, by norm_num, by decide⟩,
    time_gate_amended 30 100000000 (by norm_num) (by norm_num) (by decide)⟩

/-! Frame-rate resolution (`main.rs`), claim C4. -/

/-- The parsed value of the `--fps` argument's default string `"60.0"`
(`Args` in `main.rs`). -/
def default_fps_arg : ℚ := 60

/-- `MediaProcessor::launch_pipeline_thread`: the runner's frame rate is
`fps.unwrap_or(args_fps)`, where `fps` is the probe result from
`open_media` and `args_fps` the parsed command-line value. -/
def effective_fps (probe_fps : Option ℚ) (args_fps : ℚ) : ℚ :=
  probe_fps.getD args_fps

/-- C4 counterexample: with a probed rate of 25 and a user-supplied
`--fps 10`, the pipeline runs at 25 — the probe, not the explicit
configuration, takes precedence; and the fallback default is 60, not
30. -/
theorem fps_precedence_cx :
    effective_fps (some 25) 10 = 25
    ∧ effective_fps (some 25) 10 ≠ 10
    ∧ default_fps_arg ≠ 30 := by
  refine ⟨rfl, by norm_num [effective_fps], by norm_num [default_fps_arg]⟩

/-- C4 (amended): the probed rate takes precedence whenever the probe
succeeds; the command-line value is used only when no probe result is
available; and the command-line default is 60. -/
theorem fps_probe_precedence (p args_fps : ℚ) :
    effective_fps (some p) args_fps = p
    ∧ effective_fps none args_fps = args_fps
    ∧ default_fps_arg = 60 :=
  ⟨rfl, rfl, rfl⟩

/-! The message broker (`msg/broker.rs`), claim C8. -/

/-- `msg::broker::Control` (`MediaControl`): commands produced by the
terminal. -/
inductive MediaControl where
  | PauseContinue
  | Exit
  | MuteUnmute
  | SetCharMap (k : Nat)
  | Resize (w h : Nat)
  | SetGrayscale (b : Bool)
  deriving DecidableEq, Repr

/-- `audio::runner::Control` (`AudioControl`): commands consumed by the
audio worker. -/
inductive AudioControl where
  | PauseContinue
  | Replay
  | MuteUnmute
  | Exit
  deriving DecidableEq, Repr

/-- One arm of `MessageBroker::run`'s `match`: the messages sent to the
pipeline channel and to the audio channel (each guarded by
`if let Some(tx)` on channel presence), and the `running` flag after the
arm.  Channel presence is a boolean (`tx_channel_pipeline/audio` being
`Some`). -/
def broker_step (has_pipeline has_audio : Bool) :
    MediaControl → List Control × List AudioControl × Bool
  | .Exit =>
    ((if has_pipeline then [Control.Exit] else []),
      (if has_audio then [AudioControl.Exit] else []), false)
  | .PauseContinue =>
    ((if has_pipeline then [Control.PauseContinue] else []),
      (if has_audio then [AudioControl.PauseContinue] else []), true)
  | .Resize w h =>
    ((if has_pipeline then [Control.Resize w h] else []), [], true)
  | .SetCharMap k =>
    ((if has_pipeline then [Control.SetCharMap k] else []), [], true)
  | .SetGrayscale b =>
    ((if has_pipeline then [Control.SetGrayscale b] else []), [], true)
  | .MuteUnmute =>
    ([], (if has_audio then [AudioControl.MuteUnmute] else []), true)

/-- `MessageBroker::run` over a finite received-message sequence: the
concatenated pipeline-bound and audio-bound traffic. -/
def broker_run (has_pipeline has_audio : Bool) :
    List MediaControl → List Control × List AudioControl
  | [] => ([], [])
  | m :: rest =>
    let s := broker_step has_pipeline has_audio m
    let r := broker_run has_pipeline has_audio rest
    (s.1 ++ r.1, s.2.1 ++ r.2)

/-- C8: the broker's routing table — `PauseContinue` and `Exit` go to both
channels when present; `Resize`, `SetCharMap` and `SetGrayscale` go only
to the pipeline; `MuteUnmute` goes only to the audio channel; and with no
audio channel, no message of any processed sequence ever reaches an audio
sink (audio-bound commands are silently dropped). -/
theorem broker_routing (k w h : Nat) (b : Bool) (pipe audio : Bool) :
    broker_step true true .PauseContinue
        = ([Control.PauseContinue], [AudioControl.PauseContinue], true)
    ∧ broker_step true true .Exit = ([Control.Exit], [AudioControl.Exit], false)
    ∧ broker_step pipe audio (.Resize w h)
        = ((if pipe then [Control.Resize w h] else []), [], true)
    ∧ broker_step pipe audio (.SetCharMap k)
        = ((if pipe then [Control.SetCharMap k] else []), [], true)
    ∧ broker_step pipe audio (.SetGrayscale b)
        = ((if pipe then [Control.SetGrayscale b] else []), [], true)
    ∧ (broker_step pipe audio .MuteUnmute).1 = []
    ∧ (∀ m : MediaControl, (broker_step pipe false m).2.1 = [])
    ∧ (∀ msgs : List MediaControl, (broker_run pipe false msgs).2 = []) := by
  refine ⟨rfl, rfl, rfl, rfl, rfl, rfl, ?_, ?_⟩
  · intro m
    cases m <;> simp [broker_step]
  · intro msgs
    induction msgs with
    | nil => rfl
    | cons m rest ih =>
      cases m <;> simp [broker_run, broker_step, ih]

/-! The frames-channel protocol (`main.rs`, `runner.rs`,
`terminal/mod.rs`), claim C10. -/

/-- `main.rs`: `bounded::<Option<StringInfo>>(1)` — the capacity of the
frames channel. -/
def frames_channel_capacity : Nat := 1

/-- The terminal's receive step (`Terminal::run`):
`if let Ok(Some(s)) = self.rx_buffer.try_recv() { self.draw(&s) }` — the
frame drawn, if any, for a given `try_recv` outcome (`none` models an
empty channel). -/
def terminal_try_draw : Option (Option StringInfo) → Option StringInfo
  | some (some s) => some s
  | _ => none

/-- A message trace in which every `Some` artifact is immediately preceded
by a `None` readiness probe. -/
def ProbedList (l : List (Option StringInfo)) : Prop :=
  ∀ (j : Nat) (art : StringInfo), l.get? j = some (some art) →
    ∃ i, j = i + 1 ∧ l.get? i = some none

/-- The shape of the traces `Runner::run` writes to the frames channel:
a concatenation of per-iteration blocks, each empty, a bare probe, or a
probe followed by one `try_send` payload. -/
inductive GoodMsgs : List (Option StringInfo) → Prop
  | nil : GoodMsgs []
  | probe (ms : List (Option StringInfo)) : GoodMsgs ms → GoodMsgs (none :: ms)
  | block (x : Option StringInfo) (ms : List (Option StringInfo)) :
      GoodMsgs ms → GoodMsgs (none :: x :: ms)

theorem GoodMsgs.head_probe {l : List (Option StringInfo)} (h : GoodMsgs l) :
    l = [] ∨ l.get? 0 = some none := by
  cases h with
  | nil => exact Or.inl rfl
  | probe ms hms => exact Or.inr rfl
  | block x ms hms => exact Or.inr rfl

theorem goodmsgs_probed {l : List (Option StringInfo)} (h : GoodMsgs l) :
    ProbedList l := by
  induction h with
  | nil => intro j art hj; simp at hj
  | probe ms hms ih =>
    intro j art hj
    match j with
    | 0 => simp at hj
    | 1 => exact ⟨0, rfl, rfl⟩
    | j1 + 2 =>
      rcases ih (j1 + 1) art (by simpa using hj) with ⟨i, hji, hi⟩
      exact ⟨i + 1, by omega, by simpa using hi⟩
  | block x ms hms ih =>
    intro j art hj
    match j with
    | 0 => simp at hj
    | 1 => exact ⟨0, rfl, rfl⟩
    | 2 =>
      rcases hms.head_probe with hnil | hhead
      · rw [hnil] at hj; simp at hj
      · rw [show ((none :: x :: ms).get? 2) = ms.get? 0 from rfl, hhead] at hj
        simp at hj
    | j1 + 3 =>
      rcases ih (j1 + 1) art (by simpa using hj) with ⟨i, hji, hi⟩
      exact ⟨i + 2, by omega, by simpa using hi⟩

/-- Every trace the run loop produces has the probe-then-payload shape. -/
theorem run_model_good (allow : Bool) (envs : List EnvStep) :
    ∀ (r : Runner) (tc : Nat),
      GoodMsgs (Runner.run_model allow r tc envs).2.2 := by
  induction envs with
  | nil => intro r tc; exact GoodMsgs.nil
  | cons e rest ih =>
    intro r tc
    by_cases hs : r.state = .Stopped
    · simp only [Runner.run_model, if_pos hs]
      exact GoodMsgs.nil
    · simp only [Runner.run_model, if_neg hs]
      split
      · split
        · by_cases hr : e.channel_has_room
          · simp only [hr, if_true, List.cons_append, List.singleton_append]
            exact GoodMsgs.block _ _ (ih _ _)
          · simp only [hr, Bool.false_eq_true, if_false, List.nil_append,
              List.cons_append]
            exact GoodMsgs.probe _ (ih _ _)
        · exact ih _ _
      · exact ih _ _

/-- C10: the frames channel is bounded with capacity 1 and carries
`Option`-wrapped artifacts; in every run-loop trace each `Some` artifact
message is immediately preceded by a `None` readiness probe (sent under
the 5 ms `select!` deadline); when the channel has no room the iteration
contributes at most the probe — the artifact is dropped; and the
terminal's receive step never draws on a `None` message. -/
theorem frames_protocol :
    frames_channel_capacity = 1
    ∧ select_default_timeout_ms = 5
    ∧ (∀ (allow : Bool) (r : Runner) (tc : Nat) (envs : List EnvStep),
        ProbedList (Runner.run_model allow r tc envs).2.2)
    ∧ (∀ (allow : Bool) (r : Runner) (tc : Nat) (e : EnvStep),
        e.channel_has_room = false →
          (Runner.run_model allow r tc [e]).2.2 = []
          ∨ (Runner.run_model allow r tc [e]).2.2 = [(none : Option StringInfo)])
    ∧ terminal_try_draw none = none
    ∧ terminal_try_draw (some none) = none
    ∧ (∀ s : StringInfo, terminal_try_draw (some (some s)) = some s) := by
  refine ⟨rfl, rfl, ?_, ?_, rfl, rfl, fun s => rfl⟩
  · intro allow r tc envs
    exact goodmsgs_probed (run_model_good allow envs r tc)
  · intro allow r tc e hroom
    by_cases hs : r.state = .Stopped
    · left
      simp [Runner.run_model, hs]
    · simp only [Runner.run_model, if_neg hs, hroom]
      split
      · split
        · right
          simp [Runner.run_model]
        · left
          simp [Runner.run_model]
      · left
        simp [Runner.run_model]

/-- Concrete 1×1 frame for the C10 witness. -/
def frameC10 : RgbImage := { width := 1, height := 1, data := [(10, 20, 30)] }

/-- Concrete running pipeline for the C10 witness. -/
def rC10 : Runner := Runner.init pipeC2 (.Image (some frameC10)) 30 1

/-- C10 witness environment: one elapsed period, terminal ready, channel
free. -/
def envC10 : EnvStep :=
  { controls := [], now := 1000000000, terminal_ready := true,
    channel_has_room := true }

/-- C10 witness environment with a full channel. -/
def envC10b : EnvStep :=
  { controls := [], now := 1000000000, terminal_ready := true,
    channel_has_room := false }

/-- The channel trace of the C10 witness run. -/
def msgsC10 : List (Option StringInfo) :=
  (Runner.run_model false rC10 0 [envC10]).2.2

/-- The artifact the C10 witness run emits. -/
def artC10 : StringInfo := ((msgsC10.getD 1 none).getD ([], []))

/-- C10 witness: in a concrete run the artifact at position 1 of the trace
is preceded by the probe at position 0, and with a full channel the same
run contributes only the probe. -/
theorem frames_protocol_witness :
    (msgsC10.get? 1 = some (some artC10)
      ∧ ∃ i, 1 = i + 1 ∧ msgsC10.get? i = some none)
    ∧ (envC10b.channel_has_room = false
      ∧ ((Runner.run_model false rC10 0 [envC10b]).2.2 = []
        ∨ (Runner.run_model false rC10 0 [envC10b]).2.2
            = [(none : Option StringInfo)])) :=
  ⟨⟨by rfl, frames_protocol.2.2.1 false rC10 0 [envC10] 1 artC10 (by rfl)⟩,
    ⟨rfl, frames_protocol.2.2.2.1 false rC10 0 envC10b rfl⟩⟩

end TPlay
